import Mathlib

/-!
Verification development for the roscdmx OSC-to-DMX bridge.

The Rust sources are embedded shallowly:
* `src/main.rs` — OSC listener merge loop, DMX transmitter state machine,
  startup validation (`get_shift`, the argument-decoding `match`, `DMX::new`,
  `DMX::send_data`, `DMX::wait_and_send`, the validation block in `main`);
* `src/timer.rs` — `Timer::new`, `Timer::sleep`, `Timer::busy_sleep`;
* `src/ftd2xx/mod.rs` — `Device::write` and the break on/off calls, modelled
  by their outcomes.

Machine integers are embedded as `Nat`/`Int` with explicit checks where Rust
would panic (checked `usize` subtraction, `copy_from_slice` length assertion);
a panicking path is `Option.none`.  Rust `f32`/`f64` payloads are embedded as
`ℚ` with exact arithmetic (`clamp` and multiplication are exact; Rust performs
them in IEEE floats, whose rounding is not modelled).  `Instant` values are
abstracted as natural-number timestamps read from a `clock : Nat → Nat`
sample sequence.
-/

/-- The subset of `rosc::OscType` constructors the merge loop distinguishes.
`Int` carries an `i32` value, `Long` an `i64` value (both embedded as `ℤ`),
`Float`/`Double` carry `f32`/`f64` payloads (embedded as `ℚ`), `Char` carries
the Unicode scalar value of a `char`, and `Other` stands for every remaining
`rosc::OscType` constructor (the `_` arm of the match). -/
inductive OscType where
  | Int (a : Int)
  | Long (a : Int)
  | Float (f : ℚ)
  | Double (f : ℚ)
  | Char (c : Nat)
  | Bool (b : Bool)
  | Other
deriving DecidableEq

/-- An `rosc::OscMessage`: an address string and the typed argument list. -/
structure OscMessage where
  addr : String
  args : List OscType
deriving DecidableEq

/-- Rust `Ord::clamp` on integers: `a.clamp(lo, hi)`. -/
def clampInt (a lo hi : Int) : Int :=
  if a < lo then lo else if a > hi then hi else a

/-- Rust `f32::clamp`/`f64::clamp` on the rational embedding of the floats. -/
def clampRat (a lo hi : ℚ) : ℚ :=
  if a < lo then lo else if a > hi then hi else a

/-- One arm of the merge loop's `match msg.args[i]` (main.rs:199-207): the
channel byte written for one typed argument, given the byte currently stored
at the target position (`old`, read back by the `_` arm). `as u8` casts of
in-range integers are exact; the float-to-`u8` cast truncates toward zero
(floor, as the clamped product is nonnegative); `char as u8` keeps the low
eight bits of the scalar value; `bool as u8` is 1/0. -/
def decodeArg (old : Nat) : OscType → Nat
  | OscType.Int a => (clampInt a 0 255).toNat
  | OscType.Long a => (clampInt a 0 255).toNat
  | OscType.Float f => (⌊clampRat f 0 1 * 255⌋).toNat
  | OscType.Double f => (⌊clampRat f 0 1 * 255⌋).toNat
  | OscType.Char c => c % 256
  | OscType.Bool b => if b then 1 else 0
  | OscType.Other => old

/-- Digit-folding core of `str::parse::<usize>`: consumes ASCII digits,
failing on any other character and on overflow past `2^64` (Rust's checked
accumulation for a 64-bit `usize`). -/
def parseUsizeCore : List Char → Nat → Option Nat
  | [], acc => some acc
  | c :: rest, acc =>
    if c.isDigit then
      let v := acc * 10 + (c.toNat - 48)
      if v < 2 ^ 64 then parseUsizeCore rest v else none
    else none

/-- Rust `str::parse::<usize>()`: an optional leading `+`, then one or more
ASCII digits, no other characters; negative, empty, and malformed inputs
fail, as does overflow past the 64-bit range. -/
def parseUsize (s : String) : Option Nat :=
  match s.toList with
  | [] => none
  | c :: rest =>
    if c = '+' then
      match rest with
      | [] => none
      | _ => parseUsizeCore rest 0
    else parseUsizeCore (c :: rest) 0

/-- Character-list prefix test underlying `str::starts_with`. -/
def listStarts : List Char → List Char → Bool
  | _, [] => true
  | [], _ :: _ => false
  | c :: cs, d :: ds => c = d && listStarts cs ds

/-- Rust `msg.addr.starts_with(&osc_address_starter)` (main.rs:188). -/
def strStartsWith (s pre : String) : Bool :=
  listStarts s.data pre.data

/-- `get_shift` (main.rs:52-54): parse the address suffix after the
configured starter as a `usize` offset.  Rust slices off `starter.len()`
bytes; the caller only invokes this under a `starts_with` guard, where
dropping the starter's character count yields the identical suffix. -/
def get_shift (starter addr : String) : Option Nat :=
  parseUsize (String.mk (addr.data.drop starter.data.length))

/-- The run-length computation (main.rs:191-195):
`if shift + args_len < dmx_size { args_len } else { dmx_size - shift }`.
The subtraction is on `usize`: when `shift > dmx_size` it underflows and the
listener thread panics, embedded as `none`. -/
def a_size (dmx_size shift argsLen : Nat) : Option Nat :=
  if shift + argsLen < dmx_size then some argsLen
  else if shift ≤ dmx_size then some (dmx_size - shift) else none

/-- Buffer read used throughout: `data[j]` on the shared `Vec<u8>`. -/
def bufGet (l : List Nat) (j : Nat) : Nat := l.getD j 0

/-- The write loop (main.rs:198-208): `for i in 0..a_size` performs
`data[i+shift] = decode(args[i], data[i+shift])`, embedded by structural
recursion on the number of remaining iterations (`n = a_size - i`). -/
def forLoopWrites (data : List Nat) (shift : Nat) (args : List OscType) (i : Nat) : Nat → List Nat
  | 0 => data
  | n + 1 =>
    forLoopWrites
      (data.set (i + shift) (decodeArg (bufGet data (i + shift)) (args.getD i OscType.Other)))
      shift args (i + 1) n

/-- One iteration of the OSC listener loop on a decoded message
(main.rs:188-217): the address-prefix guard, `get_shift`, the run-length
computation, and the locked write loop.  `some data'` is the shared buffer
after the iteration (the loop continues); `none` is a panic of the listener
(the `usize` underflow in the run length). -/
def processMessage (starter : String) (dmx_size : Nat) (data : List Nat)
    (msg : OscMessage) : Option (List Nat) :=
  if strStartsWith msg.addr starter then
    match get_shift starter msg.addr with
    | some shift =>
      match a_size dmx_size shift msg.args.length with
      | some n => some (forLoopWrites data shift msg.args 0 n)
      | none => none
    | none => some data
  else some data

theorem parseUsize_digits : parseUsize (String.mk ['1', '2']) = some 12 := by decide

theorem parseUsize_negative : parseUsize (String.mk ['-', '3']) = none := by decide

theorem parseUsize_lone_plus : parseUsize (String.mk ['+']) = none := by decide

theorem parseUsize_empty : parseUsize (String.mk []) = none := by decide

def exStarter : String := "/0/dmx/"
def exAddr1 : String := "/0/dmx/1"

theorem get_shift_example : get_shift exStarter exAddr1 = some 1 := by decide

theorem bufGet_set_ne (l : List Nat) (i j v : Nat) (h : i ≠ j) :
    bufGet (l.set i v) j = bufGet l j := by
  simp only [bufGet, List.getD_eq_getElem?_getD, List.getElem?_set_ne h]

theorem bufGet_set_eq (l : List Nat) (i v : Nat) (h : i < l.length) :
    bufGet (l.set i v) i = v := by
  simp only [bufGet, List.getD_eq_getElem?_getD, List.getElem?_set_eq_of_lt v h,
    Option.getD_some]

theorem forLoopWrites_length (args : List OscType) (shift : Nat) :
    ∀ n data i, (forLoopWrites data shift args i n).length = data.length := by
  intro n
  induction n with
  | zero => intro data i; rfl
  | succ n ih =>
      intro data i
      simp only [forLoopWrites]
      rw [ih]
      exact List.length_set data _ _

theorem bufGet_forLoopWrites_outside (args : List OscType) (shift : Nat) :
    ∀ n data i j, (j < i + shift ∨ i + n + shift ≤ j) →
      bufGet (forLoopWrites data shift args i n) j = bufGet data j := by
  intro n
  induction n with
  | zero => intro data i j _; rfl
  | succ n ih =>
      intro data i j hj
      simp only [forLoopWrites]
      rw [ih _ (i + 1) j (by omega)]
      exact bufGet_set_ne data (i + shift) j _ (by omega)

theorem bufGet_forLoopWrites_written (args : List OscType) (shift : Nat) :
    ∀ n data i k, i ≤ k → k < i + n → k + shift < data.length →
      bufGet (forLoopWrites data shift args i n) (k + shift)
        = decodeArg (bufGet data (k + shift)) (args.getD k OscType.Other) := by
  intro n
  induction n with
  | zero => intro data i k h1 h2 _; omega
  | succ n ih =>
      intro data i k h1 h2 h3
      simp only [forLoopWrites]
      rcases Nat.eq_or_lt_of_le h1 with heq | hlt
      · rw [← heq]
        rw [bufGet_forLoopWrites_outside args shift n _ (i + 1) (i + shift) (by omega)]
        exact bufGet_set_eq data (i + shift) _ (by omega)
      · rw [ih _ (i + 1) k hlt (by omega)
          (by rw [List.length_set]; exact h3)]
        rw [bufGet_set_ne data (i + shift) (k + shift) _ (by omega)]

/-- C1: an inbound OSC message whose address matches the configured starter
and whose parsed offset O lies in [0, size) updates buffer positions
[O, min(O + L, size)) to the decoded argument values (each decoded against
the byte previously stored there) and leaves every other position unchanged;
the buffer length is preserved.  The witness instantiates the spec's example:
size = 4, buffer [5,5,5,5], address suffix 1, integer arguments [10,20,300]
give [5,10,20,255]. -/
theorem merge_updates_exact_window (starter : String) (size : Nat) (data : List Nat)
    (msg : OscMessage) (O : Nat)
    (hlen : data.length = size)
    (haddr : strStartsWith msg.addr starter = true)
    (hsh : get_shift starter msg.addr = some O)
    (hO : O < size) :
    ∃ data2, processMessage starter size data msg = some data2 ∧
      data2.length = size ∧
      (∀ j, O ≤ j → j < min (O + msg.args.length) size →
        bufGet data2 j = decodeArg (bufGet data j) (msg.args.getD (j - O) OscType.Other)) ∧
      (∀ j, j < O ∨ min (O + msg.args.length) size ≤ j →
        bufGet data2 j = bufGet data j) := by
  have hproc :
      processMessage starter size data msg
        = match a_size size O msg.args.length with
          | some n => some (forLoopWrites data O msg.args 0 n)
          | none => none := by
    simp only [processMessage, haddr, if_true, hsh]
  by_cases hlt : O + msg.args.length < size
  · refine ⟨forLoopWrites data O msg.args 0 msg.args.length, ?_, ?_, ?_, ?_⟩
    · rw [hproc]
      simp only [a_size, if_pos hlt]
    · rw [forLoopWrites_length]; exact hlen
    · intro j hj1 hj2
      have hj2' : j < O + msg.args.length := by omega
      have := bufGet_forLoopWrites_written msg.args O msg.args.length data 0 (j - O)
        (by omega) (by omega) (by omega)
      have hrw : j - O + O = j := by omega
      rw [hrw] at this
      exact this
    · intro j hj
      exact bufGet_forLoopWrites_outside msg.args O msg.args.length data 0 j (by omega)
  · refine ⟨forLoopWrites data O msg.args 0 (size - O), ?_, ?_, ?_, ?_⟩
    · rw [hproc]
      simp only [a_size, if_neg hlt, if_pos (by omega : O ≤ size)]
    · rw [forLoopWrites_length]; exact hlen
    · intro j hj1 hj2
      have hj2' : j < size := by omega
      have := bufGet_forLoopWrites_written msg.args O (size - O) data 0 (j - O)
        (by omega) (by omega) (by omega)
      have hrw : j - O + O = j := by omega
      rw [hrw] at this
      exact this
    · intro j hj
      exact bufGet_forLoopWrites_outside msg.args O (size - O) data 0 j (by omega)

def exMsg1 : OscMessage :=
  { addr := exAddr1, args := [OscType.Int 10, OscType.Int 20, OscType.Int 300] }

/-- Witness for C1 at the spec's example: all hypotheses hold concretely and
the resulting buffer is [5,10,20,255]. -/
theorem merge_updates_exact_window_witness :
    (∃ data2, processMessage exStarter 4 [5, 5, 5, 5] exMsg1 = some data2 ∧
      data2.length = 4 ∧
      (∀ j, 1 ≤ j → j < min (1 + exMsg1.args.length) 4 →
        bufGet data2 j
          = decodeArg (bufGet [5, 5, 5, 5] j) (exMsg1.args.getD (j - 1) OscType.Other)) ∧
      (∀ j, j < 1 ∨ min (1 + exMsg1.args.length) 4 ≤ j →
        bufGet data2 j = bufGet [5, 5, 5, 5] j)) ∧
    processMessage exStarter 4 [5, 5, 5, 5] exMsg1 = some [5, 10, 20, 255] :=
  ⟨merge_updates_exact_window exStarter 4 [5, 5, 5, 5] exMsg1 1 (by decide) (by decide)
      (by decide) (by decide),
    by decide⟩

def exAddr5 : String := "/0/dmx/5"
def exMsg5 : OscMessage := { addr := exAddr5, args := [] }

/-- Counterexample to C2 as stated: with size = 4, the address suffix 5
parses to the non-negative offset 5, yet the merge is not total — the run
length `dmx_size - shift` is a `usize` subtraction that underflows (the
listener panics, `none`), instead of truncating the run. -/
theorem merge_not_total_beyond_size :
    get_shift exStarter exAddr5 = some 5 ∧
    processMessage exStarter 4 [5, 5, 5, 5] exMsg5 = none := by
  constructor
  · decide
  · decide

/-- C2 amended: for every inbound message with a parsed offset `shift` that
is at most the buffer length, the merge never resizes the buffer, writes
only positions inside [shift, min(shift + L, size)) ⊆ [0, size), and drops
the out-of-range excess of the run by truncation; but for a parsed offset
strictly beyond the buffer length the run-length subtraction underflows and
the listener panics (no write, no truncation). -/
theorem merge_in_bounds_or_panics (starter : String) (size : Nat) (data : List Nat)
    (msg : OscMessage) (shift : Nat)
    (hlen : data.length = size)
    (haddr : strStartsWith msg.addr starter = true)
    (hsh : get_shift starter msg.addr = some shift) :
    (shift ≤ size →
      ∃ data2, processMessage starter size data msg = some data2 ∧
        data2.length = size ∧
        (∀ j, ¬ (shift ≤ j ∧ j < min (shift + msg.args.length) size) →
          bufGet data2 j = bufGet data j)) ∧
    (size < shift → processMessage starter size data msg = none) := by
  have hproc :
      processMessage starter size data msg
        = match a_size size shift msg.args.length with
          | some n => some (forLoopWrites data shift msg.args 0 n)
          | none => none := by
    simp only [processMessage, haddr, if_true, hsh]
  constructor
  · intro hle
    by_cases hlt : shift + msg.args.length < size
    · refine ⟨forLoopWrites data shift msg.args 0 msg.args.length, ?_, ?_, ?_⟩
      · rw [hproc]; simp only [a_size, if_pos hlt]
      · rw [forLoopWrites_length]; exact hlen
      · intro j hj
        exact bufGet_forLoopWrites_outside msg.args shift msg.args.length data 0 j
          (by omega)
    · refine ⟨forLoopWrites data shift msg.args 0 (size - shift), ?_, ?_, ?_⟩
      · rw [hproc]; simp only [a_size, if_neg hlt, if_pos hle]
      · rw [forLoopWrites_length]; exact hlen
      · intro j hj
        exact bufGet_forLoopWrites_outside msg.args shift (size - shift) data 0 j
          (by omega)
  · intro hgt
    rw [hproc]
    simp only [a_size, if_neg (by omega : ¬ shift + msg.args.length < size),
      if_neg (by omega : ¬ shift ≤ size)]

def exAddr3 : String := "/0/dmx/3"
def exMsg3 : OscMessage := { addr := exAddr3, args := [OscType.Int 7, OscType.Int 9] }

/-- Witness for the amended C2: offset 3 with two arguments against a
four-byte buffer truncates to one write ([5,5,5,7]), and offset 5 panics. -/
theorem merge_in_bounds_or_panics_witness :
    ((3 ≤ 4 →
      ∃ data2, processMessage exStarter 4 [5, 5, 5, 5] exMsg3 = some data2 ∧
        data2.length = 4 ∧
        (∀ j, ¬ (3 ≤ j ∧ j < min (3 + exMsg3.args.length) 4) →
          bufGet data2 j = bufGet [5, 5, 5, 5] j)) ∧
     (4 < 3 → processMessage exStarter 4 [5, 5, 5, 5] exMsg3 = none)) ∧
    ((5 ≤ 4 →
      ∃ data2, processMessage exStarter 4 [5, 5, 5, 5] exMsg5 = some data2 ∧
        data2.length = 4 ∧
        (∀ j, ¬ (5 ≤ j ∧ j < min (5 + exMsg5.args.length) 4) →
          bufGet data2 j = bufGet [5, 5, 5, 5] j)) ∧
     (4 < 5 → processMessage exStarter 4 [5, 5, 5, 5] exMsg5 = none)) ∧
    processMessage exStarter 4 [5, 5, 5, 5] exMsg3 = some [5, 5, 5, 7] :=
  ⟨merge_in_bounds_or_panics exStarter 4 [5, 5, 5, 5] exMsg3 3 (by decide) (by decide)
      (by decide),
    merge_in_bounds_or_panics exStarter 4 [5, 5, 5, 5] exMsg5 5 (by decide) (by decide)
      (by decide),
    by decide⟩

/-- `DMX::new` initialises the local frame vector to `vec![0; size+1]`
(main.rs:32). -/
def DMX.newData (size : Nat) : List Nat := List.replicate (size + 1) 0

/-- `dmx.data[1..].copy_from_slice(&*data)` (main.rs:231): copies the shared
buffer snapshot into the frame's tail, keeping index 0.  `copy_from_slice`
asserts equal lengths, so a length mismatch is a panic (`none`). -/
def copyIntoTail (frame buf : List Nat) : Option (List Nat) :=
  if frame.length = buf.length + 1 then some (frame.take 1 ++ buf) else none

/-- The transmission loop's frame state after `n` cycles (main.rs:228-234),
fed by the sequence of buffer snapshots `bufs`: the frame written to the
transport in cycle `n` is the frame state after `n + 1` cycles, since the
write sends exactly the vector the copy just filled. -/
def frameAfter (size : Nat) (bufs : Nat → List Nat) : Nat → Option (List Nat)
  | 0 => some (DMX.newData size)
  | n + 1 =>
    match frameAfter size bufs n with
    | some f => copyIntoTail f (bufs n)
    | none => none

/-- C3: when every snapshot of the shared buffer has length `size`, the
frame passed to the transport write in every cycle `n` is exactly the byte 0
followed by the `size` bytes of that cycle's snapshot — so the local frame
vector always has length `size + 1` with element 0 equal to 0 before every
write, an invariant preserved by every cycle. -/
theorem frame_is_start_code_then_snapshot (size : Nat) (bufs : Nat → List Nat)
    (hbuf : ∀ n, (bufs n).length = size) :
    ∀ n, frameAfter size bufs (n + 1) = some (0 :: bufs n) := by
  have hinv : ∀ n, ∃ f, frameAfter size bufs n = some f ∧
      f.length = size + 1 ∧ f.take 1 = [0] := by
    intro n
    induction n with
    | zero =>
        refine ⟨DMX.newData size, rfl, by simp [DMX.newData], ?_⟩
        simp [DMX.newData, List.take_replicate]
    | succ n ih =>
        obtain ⟨f, hf, hflen, hfhead⟩ := ih
        refine ⟨0 :: bufs n, ?_, by simp [hbuf n], by simp⟩
        simp only [frameAfter, hf, copyIntoTail, hflen, hbuf n, if_true, hfhead]
        simp
  intro n
  obtain ⟨f, hf, hflen, hfhead⟩ := hinv n
  simp only [frameAfter, hf, copyIntoTail, hflen, hbuf n, if_true, hfhead]
  simp

/-- Witness for C3: with size = 2 and every snapshot [7, 9], the first
transmitted frame is [0, 7, 9]. -/
theorem frame_is_start_code_then_snapshot_witness :
    frameAfter 2 (fun _ => [7, 9]) 1 = some [0, 7, 9] :=
  frame_is_start_code_then_snapshot 2 (fun _ => [7, 9]) (fun _ => rfl) 0

theorem clampInt_eq_max_min (a : Int) : clampInt a 0 255 = max 0 (min a 255) := by
  unfold clampInt
  split_ifs with h1 h2 <;> omega

theorem clampRat_eq_max_min (q : ℚ) : clampRat q 0 1 = max 0 (min q 1) := by
  unfold clampRat
  split_ifs with h1 h2
  · rw [min_eq_left (by linarith), max_eq_left (by linarith)]
  · rw [min_eq_right (by linarith), max_eq_right (by linarith)]
  · rw [min_eq_left (by linarith), max_eq_right (by linarith)]

/-- C4: the channel byte decoded for each typed OSC argument — `Int` and
`Long` clamp the value to [0, 255]; `Float` and `Double` clamp the value to
[0, 1], multiply by 255 and truncate to an integer, so 1 decodes to 255 and
0 to 0; `Bool` gives 1 for true and 0 for false; `Char` gives the
character's scalar value reduced to a byte; any other argument type leaves
the existing buffer value unchanged at that position. -/
theorem decode_per_argument_type (old : Nat) (a l : Int) (q r : ℚ) (c : Nat) :
    decodeArg old (OscType.Int a) = (max 0 (min a 255)).toNat ∧
    decodeArg old (OscType.Long l) = (max 0 (min l 255)).toNat ∧
    decodeArg old (OscType.Float q) = (⌊max 0 (min q 1) * 255⌋).toNat ∧
    decodeArg old (OscType.Double r) = (⌊max 0 (min r 1) * 255⌋).toNat ∧
    decodeArg old (OscType.Float 1) = 255 ∧
    decodeArg old (OscType.Float 0) = 0 ∧
    decodeArg old (OscType.Double 1) = 255 ∧
    decodeArg old (OscType.Double 0) = 0 ∧
    decodeArg old (OscType.Char c) = c % 256 ∧
    decodeArg old (OscType.Bool true) = 1 ∧
    decodeArg old (OscType.Bool false) = 0 ∧
    decodeArg old OscType.Other = old := by
  refine ⟨?_, ?_, ?_, ?_, ?_, ?_, ?_, ?_, rfl, rfl, rfl, rfl⟩
  · simp [decodeArg, clampInt_eq_max_min]
  · simp [decodeArg, clampInt_eq_max_min]
  · simp [decodeArg, clampRat_eq_max_min]
  · simp [decodeArg, clampRat_eq_max_min]
  · simp [decodeArg, clampRat]
    norm_num
    decide
  · simp [decodeArg, clampRat]
    norm_num
  · simp [decodeArg, clampRat]
    norm_num
    decide
  · simp [decodeArg, clampRat]
    norm_num

/-- C5: a message whose address does not start with the configured starter,
and a starter-matching message whose offset suffix fails to parse as a
non-negative integer, are both discarded with the buffer unchanged and with
the listener loop continuing (the iteration yields `some` of the untouched
buffer rather than the panicking `none`). -/
theorem non_matching_or_unparsable_is_dropped (starter : String) (size : Nat)
    (data : List Nat) (msg : OscMessage) :
    (strStartsWith msg.addr starter = false →
      processMessage starter size data msg = some data) ∧
    (get_shift starter msg.addr = none →
      processMessage starter size data msg = some data) := by
  constructor
  · intro h
    simp only [processMessage, h]
    simp
  · intro h
    by_cases hm : strStartsWith msg.addr starter
    · simp only [processMessage, hm, if_true, h]
    · simp only [processMessage, hm]
      simp

def exAddrOtherUniverse : String := "/1/dmx/0"
def exAddrNeg : String := "/0/dmx/-1"
def exMsgOtherUniverse : OscMessage :=
  { addr := exAddrOtherUniverse, args := [OscType.Int 9] }
def exMsgNeg : OscMessage := { addr := exAddrNeg, args := [OscType.Int 9] }

/-- Witness for C5: a message for universe 1 while the starter is for
universe 0 leaves the buffer untouched, and so does a matching address with
the negative suffix -1. -/
theorem non_matching_or_unparsable_is_dropped_witness :
    processMessage exStarter 4 [5, 5, 5, 5] exMsgOtherUniverse = some [5, 5, 5, 5] ∧
    processMessage exStarter 4 [5, 5, 5, 5] exMsgNeg = some [5, 5, 5, 5] :=
  ⟨(non_matching_or_unparsable_is_dropped exStarter 4 [5, 5, 5, 5]
      exMsgOtherUniverse).1 (by decide),
   (non_matching_or_unparsable_is_dropped exStarter 4 [5, 5, 5, 5]
      exMsgNeg).2 (by decide)⟩

/-- `Timer::busy_sleep` (timer.rs:19-21): spin reading the clock while
`now.saturating_duration_since(till)` is zero, i.e. while `clock k ≤ till`.
`clock` is the sequence of `Instant::now()` readings (nanosecond
timestamps), `k` the index of the next reading, and `fuel` bounds the number
of readings so the embedding is total; `some k` is the reading on which the
spin exits. -/
def busySleepRun (clock : Nat → Nat) (till : Nat) : Nat → Nat → Option Nat
  | 0, _ => none
  | fuel + 1, k =>
    if clock k - till = 0 then busySleepRun clock till fuel (k + 1) else some k

/-- `Timer::sleep` (timer.rs:26-31): while
`till.saturating_duration_since(now) > tolerance`, coarse-sleep one tick
(each loop iteration reads the clock once); then busy-spin to the
deadline. -/
def sleepRun (clock : Nat → Nat) (till tolerance : Nat) : Nat → Nat → Option Nat
  | 0, _ => none
  | fuel + 1, k =>
    if tolerance < till - clock k then sleepRun clock till tolerance fuel (k + 1)
    else busySleepRun clock till (fuel + 1) k

theorem busySleepRun_not_early (clock : Nat → Nat) (till : Nat) :
    ∀ fuel k j, busySleepRun clock till fuel k = some j → till ≤ clock j := by
  intro fuel
  induction fuel with
  | zero => intro k j h; exact absurd h (by simp [busySleepRun])
  | succ fuel ih =>
      intro k j h
      simp only [busySleepRun] at h
      by_cases hc : clock k - till = 0
      · rw [if_pos hc] at h
        exact ih (k + 1) j h
      · rw [if_neg hc] at h
        cases h
        omega

/-- C6: whenever `Timer::sleep` returns, the clock reading on which it
returned is at or past the requested deadline — it never returns early, for
deadlines both nearer and farther than the tolerance (the coarse phase runs
only while the remaining time exceeds the tolerance, and the busy phase
polls until the deadline has passed). -/
theorem sleep_never_returns_early (clock : Nat → Nat) (till tolerance : Nat) :
    ∀ fuel k j, sleepRun clock till tolerance fuel k = some j → till ≤ clock j := by
  intro fuel
  induction fuel with
  | zero => intro k j h; exact absurd h (by simp [sleepRun])
  | succ fuel ih =>
      intro k j h
      simp only [sleepRun] at h
      by_cases hc : tolerance < till - clock k
      · rw [if_pos hc] at h
        exact ih (k + 1) j h
      · rw [if_neg hc] at h
        exact busySleepRun_not_early clock till (fuel + 1) k j h
/-- Witness for C6 on the identity clock: a far deadline (5, tolerance 1,
exercising the coarse phase) and a near deadline (1, tolerance 3, busy phase
only) both return at a reading at or past the deadline. -/
theorem sleep_never_returns_early_witness :
    (5 : Nat) ≤ (fun n => n) 6 ∧ (1 : Nat) ≤ (fun n => n) 2 :=
  ⟨sleep_never_returns_early (fun n => n) 5 1 10 0 6 (by decide),
   sleep_never_returns_early (fun n => n) 1 3 10 0 2 (by decide)⟩

/-- The tolerance computed by `Timer::new` (timer.rs:13-17) from the
measured elapsed time of its single minimal coarse sleep, in nanoseconds:
`Duration::from_micros((elapsed.as_micros() * 3 / 2) as u64)`.
`as_micros` truncates the measurement to whole microseconds, `* 3 / 2` is
integer arithmetic (u128), `as u64` keeps the low 64 bits, and
`from_micros` scales back to nanoseconds. -/
def toleranceNanos (measuredNanos : Nat) : Nat :=
  (measuredNanos / 1000 * 3 / 2 % 2 ^ 64) * 1000

/-- Counterexample to C7 as stated: a measured coarse-sleep latency of
1500 ns yields a tolerance of 1000 ns, not the claimed exact 1.5 × 1500 =
2250 ns — the computation truncates to whole microseconds and rounds the
halving down. -/
theorem tolerance_not_exactly_3_halves :
    toleranceNanos 1500 = 1000 ∧ 2 * toleranceNanos 1500 ≠ 3 * 1500 := by
  constructor
  · decide
  · decide

/-- C7 amended: the construction-time tolerance is the measured coarse-sleep
duration truncated to whole microseconds, multiplied by 3 and halved with
rounding down — never more than 1.5 times the measurement, and exactly 1.5
times it whenever the measurement is a whole, even number of microseconds;
it is computed once from that single measurement (the model has no other
input) and no other operation of the timer recomputes it. -/
theorem tolerance_truncated_3_halves (m : Nat) (hm : m < 2 ^ 64) :
    2 * toleranceNanos m ≤ 3 * m ∧
    (m % 2000 = 0 → 2 * toleranceNanos m = 3 * m) := by
  have h64 : (2 : Nat) ^ 64 = 18446744073709551616 := by norm_num
  unfold toleranceNanos
  rw [h64] at hm ⊢
  have hlt : m / 1000 * 3 / 2 < 18446744073709551616 := by omega
  rw [Nat.mod_eq_of_lt hlt]
  constructor
  · omega
  · intro h2000
    omega

/-- Witness for C7's amended statement: a 4000 ns measurement (4 µs, even)
gives exactly 6000 ns. -/
theorem tolerance_truncated_3_halves_witness :
    2 * toleranceNanos 4000 ≤ 3 * 4000 ∧ 2 * toleranceNanos 4000 = 3 * 4000 :=
  ⟨(tolerance_truncated_3_halves 4000 (by norm_num)).1,
   (tolerance_truncated_3_halves 4000 (by norm_num)).2 (by norm_num)⟩

/-- The startup parameters checked by the validation block
(main.rs:137-152).  `dmx_size` is a `usize`, the three times are `u64`
microsecond counts; the CLI parser only produces non-negative values. -/
structure Config where
  dmx_size : Nat
  dmx_break_time : Nat
  dmx_mab_time : Nat
  dmx_idle_time : Nat
deriving DecidableEq

/-- Outcome of the start of `main` after argument parsing: either the
process exited with a code, or it went on to open the FTD2XX device. -/
inductive StartupResult where
  | exited (code : Nat)
  | openedDevice
deriving DecidableEq

/-- The validation block (main.rs:137-152) followed by the device-opening
sequence (main.rs:155-163): each out-of-bounds parameter prints a message
and exits the process with code 1; only when all four checks pass does
control reach `Device::open`. -/
def startupValidate (c : Config) : StartupResult :=
  if c.dmx_size < 1 ∨ c.dmx_size > 512 then StartupResult.exited 1
  else if c.dmx_break_time < 1 ∨ c.dmx_break_time > 1000000 then StartupResult.exited 1
  else if c.dmx_mab_time < 1 ∨ c.dmx_mab_time > 1000000 then StartupResult.exited 1
  else if c.dmx_idle_time < 1 ∨ c.dmx_idle_time > 10000000000 then StartupResult.exited 1
  else StartupResult.openedDevice

/-- C8: startup proceeds to open the device exactly when the universe size
is in [1, 512], break and MAB times are in [1, 1000000] µs, and idle time
is in [1, 10000000000] µs; any out-of-bounds parameter instead exits the
process with code 1 before the device is opened. -/
theorem startup_accepts_iff_bounds (c : Config) :
    (startupValidate c = StartupResult.openedDevice ↔
      (1 ≤ c.dmx_size ∧ c.dmx_size ≤ 512 ∧
       1 ≤ c.dmx_break_time ∧ c.dmx_break_time ≤ 1000000 ∧
       1 ≤ c.dmx_mab_time ∧ c.dmx_mab_time ≤ 1000000 ∧
       1 ≤ c.dmx_idle_time ∧ c.dmx_idle_time ≤ 10000000000)) ∧
    (startupValidate c ≠ StartupResult.openedDevice →
      startupValidate c = StartupResult.exited 1) := by
  unfold startupValidate
  constructor
  · constructor
    · intro h
      split_ifs at h with h1 h2 h3 h4 <;>
        first
          | exact absurd h (by decide)
          | omega
    · intro hb
      split_ifs with h1 h2 h3 h4 <;> first | rfl | omega
  · intro h
    split_ifs at h ⊢
    all_goals first | rfl | exact absurd rfl h

/-- The default configuration of `main`: size 512, break 92 µs, MAB 12 µs,
idle 5000 µs. -/
def cfgDefault : Config :=
  { dmx_size := 512, dmx_break_time := 92, dmx_mab_time := 12, dmx_idle_time := 5000 }

/-- The default configuration with an out-of-range size of 513. -/
def cfgOversize : Config :=
  { dmx_size := 513, dmx_break_time := 92, dmx_mab_time := 12, dmx_idle_time := 5000 }

/-- Witness for C8: the default configuration (512, 92 µs, 12 µs, 5000 µs)
is accepted, and a size of 513 exits with code 1. -/
theorem startup_accepts_iff_bounds_witness :
    startupValidate cfgDefault = StartupResult.openedDevice ∧
    startupValidate cfgOversize = StartupResult.exited 1 :=
  ⟨(startup_accepts_iff_bounds cfgDefault).1.mpr (by norm_num [cfgDefault]),
   (startup_accepts_iff_bounds cfgOversize).2 (by decide)⟩

/-- The driver-status side of `FTError` (ftd2xx/mod.rs:76-80): an FTD2XX
status code, an invalid-parameter error, or a closed device. -/
inductive FTError where
  | FTD2XXError (code : Int)
  | InvalidParameter
  | DeviceClosed
deriving DecidableEq

/-- The outcomes of the three transport operations one `send_data` cycle
performs, in the order `set_break_on`, `set_break_off`, `write`
(`Device::write` returns the driver's bytes-written count on success,
whatever it is — ftd2xx/mod.rs:277-291 never compares it with the request
length). -/
structure DeviceOutcome where
  set_break_on : Except FTError Unit
  set_break_off : Except FTError Unit
  write : Except FTError Nat

/-- `DMX::send_data` (main.rs:36-43): assert break, sleep, deassert break,
sleep, write the frame; each `?` propagates the first transport error, and
the bytes-written count of a successful write is discarded by `Ok(())`.
The two timer sleeps are pure delays with no effect on the result. -/
def send_data (dev : DeviceOutcome) : Except FTError Unit :=
  match dev.set_break_on with
  | Except.error e => Except.error e
  | Except.ok _ =>
    match dev.set_break_off with
    | Except.error e => Except.error e
    | Except.ok _ =>
      match dev.write with
      | Except.error e => Except.error e
      | Except.ok _ => Except.ok ()

/-- C9: `send_data` returns `Ok` whenever break-on, break-off and the
transport write all report success, even when the reported bytes-written
count falls short of the frame length — a partial write is never surfaced
as an error. -/
theorem send_data_ok_ignores_short_write (dev : DeviceOutcome) (written frameLen : Nat)
    (hon : dev.set_break_on = Except.ok ())
    (hoff : dev.set_break_off = Except.ok ())
    (hw : dev.write = Except.ok written)
    (_hshort : written < frameLen) :
    send_data dev = Except.ok () := by
  simp only [send_data, hon, hoff, hw]

/-- A device on which every transport call succeeds but the write reports
zero bytes written. -/
def devShortWrite : DeviceOutcome :=
  { set_break_on := Except.ok (),
    set_break_off := Except.ok (),
    write := Except.ok 0 }

/-- Witness for C9: a device reporting zero bytes written against a
five-byte frame (size 4 plus start code) still yields `Ok`. -/
theorem send_data_ok_ignores_short_write_witness :
    send_data devShortWrite = Except.ok () :=
  send_data_ok_ignores_short_write devShortWrite 0 5 rfl rfl rfl (by decide)

/-- The `DMX` struct's mutable state as `wait_and_send` sees it
(main.rs:15-23): the configured durations, the scheduling cursor `next`,
the local frame vector, and the timer's calibrated tolerance, with
`Instant`s and `Duration`s as nanosecond counts. -/
structure DMXState where
  break_time : Nat
  mab_time : Nat
  idle_time : Nat
  next : Nat
  data : List Nat
  tolerance : Nat
deriving DecidableEq

/-- `DMX::wait_and_send` (main.rs:44-49): sleep until the recorded `next`
deadline, attempt `send_data`, then set `next` to a fresh
`Instant::now()` reading plus `idle_time` — whatever `send_data` returned —
and return that result.  `clock`/`fuel`/`k` drive the sleep as in
`sleepRun`; the fresh reading after the transmission attempt is the clock
sample following the one the sleep returned on.  `none` is sleep-fuel
exhaustion (the embedding's totality bound), never a path of the code. -/
def wait_and_send (s : DMXState) (clock : Nat → Nat) (fuel k : Nat)
    (dev : DeviceOutcome) : Option (Except FTError Unit × DMXState) :=
  match sleepRun clock s.next s.tolerance fuel k with
  | none => none
  | some j =>
    let ret := send_data dev
    some (ret, { s with next := clock (j + 1) + s.idle_time })

/-- C10: whenever `wait_and_send` completes, the scheduling cursor `next`
of the resulting state is a clock instant taken after the transmission
attempt plus `idle_time`, and this holds whether `send_data` succeeded or
returned a transport error (the returned result is exactly `send_data`'s);
no other field of the DMX state changes. -/
theorem wait_and_send_advances_cursor (s : DMXState) (clock : Nat → Nat)
    (fuel k : Nat) (dev : DeviceOutcome) (p : Except FTError Unit × DMXState)
    (h : wait_and_send s clock fuel k dev = some p) :
    p.1 = send_data dev ∧
    ∃ j, sleepRun clock s.next s.tolerance fuel k = some j ∧
      p.2.next = clock (j + 1) + s.idle_time ∧
      p.2.break_time = s.break_time ∧ p.2.mab_time = s.mab_time ∧
      p.2.idle_time = s.idle_time ∧ p.2.data = s.data ∧
      p.2.tolerance = s.tolerance := by
  unfold wait_and_send at h
  cases hs : sleepRun clock s.next s.tolerance fuel k with
  | none => rw [hs] at h; exact absurd h (by simp)
  | some j =>
      rw [hs] at h
      simp only [Option.some_inj] at h
      subst h
      exact ⟨rfl, j, rfl, rfl, rfl, rfl, rfl, rfl, rfl⟩

/-- A device whose break-on call fails with an IO error (status code 3). -/
def devFailing : DeviceOutcome :=
  { set_break_on := Except.error (FTError.FTD2XXError 3),
    set_break_off := Except.ok (), write := Except.ok 5 }

/-- The DMX state used in the C10 witness. -/
def exState : DMXState :=
  { break_time := 92000, mab_time := 12000, idle_time := 5000000,
    next := 3, data := [0, 0, 0], tolerance := 1 }

/-- The pair `wait_and_send` produces in the C10 witness run: the
propagated transport error, and the state with the cursor advanced to the
post-send clock reading 5 plus the 5000000 ns idle time. -/
def exResult : Except FTError Unit × DMXState :=
  (Except.error (FTError.FTD2XXError 3), { exState with next := 5000005 })

/-- Witness for C10 on the identity clock with a failing device: the call
returns the transport error, yet the cursor advanced to
clock-after-send + idle_time = 5000005, with the frame data unchanged. -/
theorem wait_and_send_advances_cursor_witness :
    ∃ p, wait_and_send exState (fun n => n) 10 0 devFailing = some p ∧
      p.1 = send_data devFailing ∧ p.2.next = 5000005 ∧
      p.2.data = exState.data := by
  have h : wait_and_send exState (fun n => n) 10 0 devFailing = some exResult := rfl
  obtain ⟨h1, _, _, _, _, _, _, hdata, _⟩ :=
    wait_and_send_advances_cursor exState (fun n => n) 10 0 devFailing exResult h
  exact ⟨exResult, h, h1, rfl, hdata⟩
